import Mathlib

/-!
# Verification of the `annotations` check of the reliability scanner

Shallow embedding of
`reliability-scanner/api/v1alpha1/service/annotations/annotations.go`.

Modelling conventions.

* Go strings are modelled by Lean `String` (sequences of Unicode code points;
  Go byte strings that are not valid UTF-8 are outside the model).
* A Go `map[string]T` is a duplicate-free association list (`GoMap`); a `nil`
  map and an empty map are both the empty list.  `range` visits the entries in
  list order; every operation that the source performs on a map (`m[k]`,
  `m[k] = v`, `range`) is a function on `GoMap`.
* The result channel `cfg.Results` is the sequence of values sent so far
  (oldest first); the logger is the sequence of entries written so far.
* The Kubernetes client is identified with the outcome of the one `List`
  call that `Start` performs: the returned `ServiceList` and the error, where a
  failed call may still hand back resources (a response that fails to decode
  part-way leaves the resources decoded so far in the list).
-/

namespace annotations

/-! ## Go maps -/

/-- Assignment `m[k] = v` on the entry list of a map: the value of an existing
key is replaced in place, a new key is added at the end. -/
def setEntry {α : Type} (k : String) (v : α) : List (String × α) → List (String × α)
  | [] => [(k, v)]
  | e :: rest => if e.1 = k then (k, v) :: rest else e :: setEntry k v rest

theorem setEntry_keys {α : Type} (k : String) (v : α) (l : List (String × α)) :
    (setEntry k v l).map Prod.fst
      = if k ∈ l.map Prod.fst then l.map Prod.fst else l.map Prod.fst ++ [k] := by
  induction l with
  | nil => simp [setEntry]
  | cons e rest ih =>
    by_cases h : e.1 = k
    · simp [setEntry, h]
    · have h' : ¬ k = e.1 := fun c => h c.symm
      by_cases hm : k ∈ rest.map Prod.fst
      · simp only [setEntry, h, if_false, List.map_cons, ih, hm, if_true, List.mem_cons, or_true]
      · simp only [setEntry, h, if_false, List.map_cons, ih, hm, List.mem_cons, h', or_self,
          List.cons_append]

theorem setEntry_nodup {α : Type} (k : String) (v : α) (l : List (String × α))
    (h : (l.map Prod.fst).Nodup) : ((setEntry k v l).map Prod.fst).Nodup := by
  rw [setEntry_keys]
  split
  · exact h
  · rename_i hk
    rw [List.nodup_append]
    refine ⟨h, List.nodup_singleton k, ?_⟩
    intro a ha hb
    rw [List.mem_singleton] at hb
    exact hk (hb ▸ ha)

/-- A Go `map[string]α`: an association list without duplicate keys. -/
structure GoMap (α : Type) where
  entries : List (String × α)
  nodup : (entries.map Prod.fst).Nodup

theorem GoMap.ext_entries {α : Type} {a b : GoMap α} (h : a.entries = b.entries) : a = b := by
  cases a; cases b; cases h; rfl

instance {α : Type} [DecidableEq α] : DecidableEq (GoMap α) := fun a b =>
  decidable_of_iff (a.entries = b.entries) ⟨GoMap.ext_entries, fun h => h ▸ rfl⟩

/-- The empty map, `make(map[string]α)` (also the `nil` map). -/
def GoMap.make {α : Type} : GoMap α := ⟨[], List.nodup_nil⟩

/-- Two-valued lookup `v, exists := m[k]`: `none` when the key is absent. -/
def GoMap.index {α : Type} (m : GoMap α) (k : String) : Option α :=
  m.entries.lookup k

/-- Whether `_, exists := m[k]` reports the key as present. -/
def GoMap.exists {α : Type} (m : GoMap α) (k : String) : Bool :=
  (m.index k).isSome

/-- One-valued lookup `m[k]` on a `map[string]string`: the zero value `""`
when the key is absent. -/
def GoMap.get (m : GoMap String) (k : String) : String :=
  (m.index k).getD ""

/-- Assignment `m[k] = v`. -/
def GoMap.set {α : Type} (m : GoMap α) (k : String) (v : α) : GoMap α :=
  ⟨setEntry k v m.entries, setEntry_nodup k v m.entries m.nodup⟩

/-! ## Go standard library: `strings.TrimSpace`, `fmt.Sprintf` -/

/-- Go's `unicode.IsSpace`: the Latin-1 spaces `\t \n \v \f \r`, space, U+0085,
U+00A0, and beyond Latin-1 the code points of the `White_Space` property. -/
def isSpace (r : Char) : Bool :=
  let n := r.toNat
  if n ≤ 0xFF then
    n == 0x09 || n == 0x0A || n == 0x0B || n == 0x0C || n == 0x0D || n == 0x20
      || n == 0x85 || n == 0xA0
  else
    n == 0x1680 || (0x2000 ≤ n && n ≤ 0x200A) || n == 0x2028 || n == 0x2029
      || n == 0x202F || n == 0x205F || n == 0x3000

/-- Go's `strings.TrimSpace`: the string without its leading and trailing
white space (as defined by `unicode.IsSpace`). -/
def TrimSpace (s : String) : String :=
  String.mk ((s.data.dropWhile isSpace).reverse.dropWhile isSpace).reverse

/-- The call `fmt.Sprintf("key: %s does not exist", key)`. -/
def Sprintf_key_does_not_exist (key : String) : String :=
  "key: " ++ key ++ " does not exist"

/-! ## Data model -/

/-- The check name, `var checkName string = "annotations"`. -/
def checkName : String := "annotations"

/-- QuerierSpec defines the Specification for a Querier. -/
structure QuerierSpec where
  Key : String
  ValidateURL : Bool
  IncludeAnnotations : Bool
deriving DecidableEq

/-- The fields of `metav1.ObjectMeta` that the check reads. -/
structure ObjectMeta where
  Name : String
  Labels : GoMap String
  Annotations : GoMap String
deriving DecidableEq

/-- A `v1.Service` as far as the check reads it (`service.Labels` is the
promoted field `service.ObjectMeta.Labels`). -/
structure Service where
  ObjectMeta : ObjectMeta
deriving DecidableEq

/-- A value stored in an item's `Details` (`map[string]interface{}`): the check
stores either a string (`"error"`) or a map whose values are the strings of a
`map[string]string` (`"annotations"`). -/
inductive Detail where
  | str (s : String)
  | strMap (m : GoMap String)
deriving DecidableEq

/-- Modelled from the spec: `internal.Item`, the per-resource report item
`{ name, status, details }` (its declaration is in package `internal`). -/
structure Item where
  Name : String
  Status : String
  Details : GoMap Detail
deriving DecidableEq

/-- Modelled from the spec: `internal.ReportItem`, the summary of a check
`{ name, status, items }` (its declaration is in package `internal`).
`Items` is `nil` (empty) until the first `append`. -/
structure ReportItem where
  Name : String
  Status : String
  Items : List Item := []
deriving DecidableEq

/-- Outcome of the cluster query: on success the services in the order
returned; on failure the error together with the services that the call left
in the returned list (none when the request itself failed, the ones decoded so
far when the response failed to decode). -/
inductive QueryOutcome where
  | success (services : List Service)
  | failure (error : String) (services : List Service)
deriving DecidableEq

/-- The `*v1.ServiceList` returned by `List`. -/
structure ServiceList where
  Items : List Service
deriving DecidableEq

/-- The client handle `*kubernetes.Clientset`, identified with the outcome of
the `List` call made through it. -/
structure Clientset where
  outcome : QueryOutcome
deriving DecidableEq

/-- The call `q.client.CoreV1().Services("").List(ctx, metav1.ListOptions{})`,
returning `(services, err)`; `err` is `none` for `nil`.  client-go allocates an
empty `ServiceList` before the request, decodes the response into it and
returns it together with the error, so a failed call returns the list with
whatever it holds at that point. -/
def Clientset.List (c : Clientset) : ServiceList × Option String :=
  match c.outcome with
  | .success services => (⟨services⟩, none)
  | .failure error services => (⟨services⟩, some error)

/-- Querier defines the query and set of checks. -/
structure Querier where
  client : Clientset
  Spec : QuerierSpec
deriving DecidableEq

/-- One entry written through `Logger.WithFields(fields).Info(msg)`. -/
structure LogEntry where
  fields : List (String × String)
  msg : String
deriving DecidableEq

/-- Modelled from the spec: the message constants `internal.CheckStartMsg`,
`internal.CheckCompleteMsg` and `internal.CheckWriteMsg` of package
`internal`, whose values are not part of the source file. -/
structure Messages where
  CheckStartMsg : String
  CheckCompleteMsg : String
  CheckWriteMsg : String
deriving DecidableEq

/-- Modelled from the spec: `internal.QuerierConfig`, the execution context:
the result sink (values sent on the channel so far, oldest first) and the
logger (entries written so far). -/
structure QuerierConfig where
  Results : List ReportItem
  Logger : List LogEntry
deriving DecidableEq

/-- Modelled from the spec: `internal.Runner`, the host runner with its
collection of registered checks and its logger. -/
structure Runner where
  Queriers : List Querier
  Logger : List LogEntry
deriving DecidableEq

/-- The statement `logger.WithFields(fields).Info(msg)`. -/
def logInfo (logger : List LogEntry) (fields : List (String × String)) (msg : String) :
    List LogEntry :=
  logger ++ [⟨fields, msg⟩]

/-! ## Operations -/

/-- AddtoRunner configures a runner with the Querier for this check. -/
def Querier.AddtoRunner (querier : Querier) (runner : Runner) : Runner :=
  let runner := { runner with Queriers := runner.Queriers ++ [querier] }
  { runner with
    Logger := logInfo runner.Logger [("check_name", checkName), ("phase", "add")] "complete" }

/-- The copy loop `for k, v := range service.Labels { annotations[k] = v }`
started from `annotations := make(map[string]interface{})`. -/
def copyLabels (labels : GoMap String) : GoMap String :=
  labels.entries.foldl (fun annotations kv => annotations.set kv.1 kv.2) GoMap.make

/-- One iteration of `for _, service := range services.Items` in `Start`
(source lines 73-103), as a transformer of `checkItem`. -/
def Querier.loopBody (q : Querier) (checkItem : ReportItem) (service : Service) : ReportItem :=
  let details : GoMap Detail := GoMap.make
  if service.ObjectMeta.Labels.get "sonobuoy-component" == "aggregator" then
    checkItem
  else
    let details :=
      if q.Spec.IncludeAnnotations then
        let annotations := copyLabels service.ObjectMeta.Labels
        details.set "annotations" (Detail.strMap annotations)
      else details
    let item : Item :=
      { Name := service.ObjectMeta.Name, Status := "passed", Details := details }
    let r : ReportItem × Item :=
      if TrimSpace q.Spec.Key != "" then
        if !(service.ObjectMeta.Annotations.exists q.Spec.Key) then
          ({ checkItem with Status := "failed" },
           { item with
             Status := "failed"
             Details := item.Details.set "error"
               (Detail.str (Sprintf_key_does_not_exist q.Spec.Key)) })
        else (checkItem, item)
      else (checkItem, item)
    { r.1 with Items := r.1.Items ++ [r.2] }

/-- The value of `checkItem` when `Start` sends it (source lines 63-103):
initialised to `passed`, set to `failed` when the query returns an error, then
run through the loop over `services.Items`. -/
def Querier.checkItem (q : Querier) : ReportItem :=
  let checkItem : ReportItem := { Name := checkName, Status := "passed" }
  let (services, err) := q.client.List
  let checkItem :=
    if err.isSome then { checkItem with Status := "failed" } else checkItem
  services.Items.foldl q.loopBody checkItem

/-- Start runs the Querier: log "start", compute the summary, log "complete",
send the summary on `cfg.Results`, log "write". -/
def Querier.Start (msgs : Messages) (q : Querier) (cfg : QuerierConfig) : QuerierConfig :=
  let cfg := { cfg with
    Logger := logInfo cfg.Logger [("check_name", checkName), ("phase", "add")]
      msgs.CheckStartMsg }
  let checkItem := q.checkItem
  let cfg := { cfg with
    Logger := logInfo cfg.Logger
      [("component", "check"), ("check_name", checkName), ("phase", "complete")]
      msgs.CheckCompleteMsg }
  let cfg := { cfg with Results := cfg.Results ++ [checkItem] }
  { cfg with
    Logger := logInfo cfg.Logger
      [("component", "check"), ("check_name", checkName), ("phase", "write")]
      msgs.CheckWriteMsg }

/-! ## Vocabulary of the specification -/

/-- The resource carries the label `sonobuoy-component=aggregator`. -/
def Service.isAggregator (s : Service) : Bool :=
  s.ObjectMeta.Labels.index "sonobuoy-component" == some "aggregator"

/-- The resources of a query result that are not skipped, in order. -/
def kept (services : List Service) : List Service :=
  services.filter (fun s => !s.isAggregator)

/-- The query outcome with the resources carrying the aggregator label removed
from the returned list. -/
def QueryOutcome.withoutAggregators : QueryOutcome → QueryOutcome
  | .success services => .success (kept services)
  | .failure error services => .failure error (kept services)

/-- The cluster query failed. -/
def QueryOutcome.failed : QueryOutcome → Bool
  | .success _ => false
  | .failure _ _ => true

/-- The resources that the `List` call handed back, in order. -/
def QueryOutcome.returned : QueryOutcome → List Service
  | .success services => services
  | .failure _ services => services

/-- The key-presence rule fires for a resource: the configured key is non-empty
after trimming white space and the resource's annotations do not contain it. -/
def Querier.keyMissing (q : Querier) (s : Service) : Bool :=
  TrimSpace q.Spec.Key != "" && !(s.ObjectMeta.Annotations.exists q.Spec.Key)

/-- The item appended by one loop iteration for a resource, read off the
iteration run on an empty summary; `none` when the iteration appends nothing. -/
def Querier.itemOf (q : Querier) (s : Service) : Option Item :=
  (q.loopBody { Name := checkName, Status := "passed" } s).Items.head?

/-- Two resources differ at most in their annotation values: same name, same
labels, and the same set of annotation keys. -/
def Service.sameUpToAnnotationValues (a b : Service) : Prop :=
  a.ObjectMeta.Name = b.ObjectMeta.Name ∧ a.ObjectMeta.Labels = b.ObjectMeta.Labels ∧
    ∀ k : String, a.ObjectMeta.Annotations.exists k = b.ObjectMeta.Annotations.exists k

/-- A service with the given name, labels and annotations. -/
def mkService (name : String) (labels annotations : GoMap String) : Service :=
  ⟨⟨name, labels, annotations⟩⟩

/-- The map with the given entries, for entry lists given explicitly. -/
def mapOf {α : Type} (entries : List (String × α))
    (h : (entries.map Prod.fst).Nodup) : GoMap α :=
  ⟨entries, h⟩

/-! ## Sample data (the scenarios of the specification) -/

/-- Some values for the message constants of package `internal`. -/
def sampleMsgs : Messages := ⟨"start", "complete", "write"⟩

/-- An execution context with nothing sent and nothing logged yet. -/
def freshCfg : QuerierConfig := ⟨[], []⟩

/-- Scenario 1: `svc-a` annotated with `required-key`. -/
def svcA : Service :=
  mkService "svc-a" GoMap.make (mapOf [("required-key", "x")] (by decide))

/-- Scenario 2: `svc-b` without annotations. -/
def svcB : Service := mkService "svc-b" GoMap.make GoMap.make

/-- Scenario 3: the aggregator's own service, without annotations. -/
def svcAgg : Service :=
  mkService "sonobuoy-aggregator" (mapOf [("sonobuoy-component", "aggregator")] (by decide))
    GoMap.make

/-- Scenario 5: a service labelled `env=prod`, without annotations. -/
def svcProd : Service := mkService "svc-prod" (mapOf [("env", "prod")] (by decide)) GoMap.make

/-- The service `svc-a` with `required-key` mapped to the empty string. -/
def svcAEmpty : Service :=
  mkService "svc-a" GoMap.make (mapOf [("required-key", "")] (by decide))

/-! ## Lemmas on maps -/

theorem setEntry_of_not_mem {α : Type} (k : String) (v : α) (l : List (String × α))
    (h : k ∉ l.map Prod.fst) : setEntry k v l = l ++ [(k, v)] := by
  induction l with
  | nil => rfl
  | cons e rest ih =>
    have h1 : ¬ e.1 = k := fun c => h (by simp [c])
    have h2 : k ∉ rest.map Prod.fst := fun c => h (by simp [List.mem_cons, c])
    simp [setEntry, h1, ih h2]

theorem foldl_set_entries (l : List (String × String)) :
    ∀ (acc : GoMap String), (l.map Prod.fst).Nodup →
      (∀ k ∈ l.map Prod.fst, k ∉ acc.entries.map Prod.fst) →
      (l.foldl (fun annotations kv => annotations.set kv.1 kv.2) acc).entries
        = acc.entries ++ l := by
  induction l with
  | nil => intro acc _ _; simp
  | cons e rest ih =>
    intro acc hnd hdis
    have he : e.1 ∉ acc.entries.map Prod.fst := hdis e.1 (by simp)
    rw [List.map_cons, List.nodup_cons] at hnd
    rw [List.foldl_cons, ih (acc.set e.1 e.2) hnd.2]
    · simp [GoMap.set, setEntry_of_not_mem e.1 e.2 acc.entries he]
    · intro k hk
      simp only [GoMap.set, setEntry_keys, he, if_false, List.mem_append, List.mem_singleton,
        not_or]
      refine ⟨hdis k (by simp [List.mem_cons, hk]), ?_⟩
      intro c
      exact hnd.1 (c ▸ hk)

/-- Copying a label map entry by entry into a fresh map yields the same map. -/
theorem copyLabels_eq (labels : GoMap String) : copyLabels labels = labels := by
  apply GoMap.ext_entries
  unfold copyLabels
  rw [foldl_set_entries labels.entries GoMap.make labels.nodup]
  · simp [GoMap.make]
  · intro k _; simp [GoMap.make]

theorem index_make {α : Type} (k : String) : (GoMap.make : GoMap α).index k = none := rfl

theorem index_set_same {α : Type} (m : GoMap α) (k : String) (v : α) :
    (m.set k v).index k = some v := by
  obtain ⟨l, hl⟩ := m
  simp only [GoMap.set, GoMap.index]
  clear hl
  induction l with
  | nil => simp [setEntry, List.lookup]
  | cons e rest ih =>
    obtain ⟨a, b⟩ := e
    by_cases h : a = k
    · simp [setEntry, h, List.lookup]
    · have h' : (k == a) = false := by simpa using fun c => h c.symm
      simp [setEntry, h, List.lookup, h', ih]

theorem index_set_ne {α : Type} (m : GoMap α) (k k' : String) (v : α) (hk : k' ≠ k) :
    (m.set k v).index k' = m.index k' := by
  obtain ⟨l, hl⟩ := m
  simp only [GoMap.set, GoMap.index]
  clear hl
  induction l with
  | nil =>
    have h' : (k' == k) = false := by simpa using hk
    simp [setEntry, List.lookup, h']
  | cons e rest ih =>
    obtain ⟨a, b⟩ := e
    by_cases h : a = k
    · subst h
      have h' : (k' == a) = false := by simpa using hk
      simp [setEntry, List.lookup, h']
    · by_cases h2 : (k' == a) = true
      · simp [setEntry, h, List.lookup, h2]
      · simp [setEntry, h, List.lookup, h2, ih]

theorem get_eq_isAggregator (s : Service) :
    (s.ObjectMeta.Labels.get "sonobuoy-component" == "aggregator") = s.isAggregator := by
  unfold GoMap.get Service.isAggregator
  cases s.ObjectMeta.Labels.index "sonobuoy-component" with
  | none => decide
  | some v => simp

/-! ## The loop body, one iteration at a time -/

theorem loopBody_aggregator (q : Querier) (c : ReportItem) (s : Service)
    (h : s.isAggregator = true) : q.loopBody c s = c := by
  simp [Querier.loopBody, get_eq_isAggregator, h]

theorem loopBody_kept (q : Querier) (c : ReportItem) (s : Service)
    (h : s.isAggregator = false) :
    q.loopBody c s =
      { Name := c.Name
        Status := if q.keyMissing s then "failed" else c.Status
        Items := c.Items ++
          [{ Name := s.ObjectMeta.Name
             Status := if q.keyMissing s then "failed" else "passed"
             Details :=
               if q.keyMissing s then
                 (if q.Spec.IncludeAnnotations then
                    GoMap.make.set "annotations" (Detail.strMap s.ObjectMeta.Labels)
                  else GoMap.make).set "error"
                    (Detail.str (Sprintf_key_does_not_exist q.Spec.Key))
               else if q.Spec.IncludeAnnotations then
                 GoMap.make.set "annotations" (Detail.strMap s.ObjectMeta.Labels)
               else GoMap.make }] } := by
  unfold Querier.loopBody Querier.keyMissing
  simp only [get_eq_isAggregator, h, copyLabels_eq]
  by_cases h1 : TrimSpace q.Spec.Key = ""
  · simp [h1]
  · by_cases h2 : s.ObjectMeta.Annotations.exists q.Spec.Key = true
    · simp [h1, h2]
    · simp [h1, h2]

theorem itemOf_aggregator (q : Querier) (s : Service) (h : s.isAggregator = true) :
    q.itemOf s = none := by
  simp [Querier.itemOf, loopBody_aggregator q _ s h]

theorem itemOf_kept (q : Querier) (s : Service) (h : s.isAggregator = false) :
    q.itemOf s = some
      { Name := s.ObjectMeta.Name
        Status := if q.keyMissing s then "failed" else "passed"
        Details :=
          if q.keyMissing s then
            (if q.Spec.IncludeAnnotations then
               GoMap.make.set "annotations" (Detail.strMap s.ObjectMeta.Labels)
             else GoMap.make).set "error"
               (Detail.str (Sprintf_key_does_not_exist q.Spec.Key))
          else if q.Spec.IncludeAnnotations then
            GoMap.make.set "annotations" (Detail.strMap s.ObjectMeta.Labels)
          else GoMap.make } := by
  simp [Querier.itemOf, loopBody_kept q _ s h]

theorem itemOf_status (q : Querier) (s : Service) (it : Item) (h : q.itemOf s = some it) :
    s.isAggregator = false ∧ it.Name = s.ObjectMeta.Name ∧
      it.Status = (if q.keyMissing s then "failed" else "passed") := by
  cases ha : s.isAggregator with
  | true => rw [itemOf_aggregator q s ha] at h; cases h
  | false =>
    rw [itemOf_kept q s ha] at h
    cases h
    exact ⟨rfl, rfl, rfl⟩

/-- One iteration in terms of the item it appends. -/
theorem loopBody_eq (q : Querier) (c : ReportItem) (s : Service) :
    q.loopBody c s =
      match q.itemOf s with
      | none => c
      | some it =>
        { Name := c.Name
          Status := if it.Status = "failed" then "failed" else c.Status
          Items := c.Items ++ [it] } := by
  cases ha : s.isAggregator with
  | true => rw [itemOf_aggregator q s ha, loopBody_aggregator q c s ha]
  | false =>
    rw [itemOf_kept q s ha, loopBody_kept q c s ha]
    by_cases hm : q.keyMissing s = true
    · simp [hm]
    · simp [hm]

/-- The whole loop: the items are those of the resources in order, the name
is untouched, and the status is `failed` when it was so before or some
appended item is. -/
theorem foldl_loopBody (q : Querier) (services : List Service) :
    ∀ c : ReportItem,
      services.foldl q.loopBody c =
        { Name := c.Name
          Status :=
            if (services.filterMap q.itemOf).any (fun it => it.Status == "failed")
            then "failed" else c.Status
          Items := c.Items ++ services.filterMap q.itemOf } := by
  induction services with
  | nil => intro c; simp
  | cons s rest ih =>
    intro c
    rw [List.foldl_cons, ih (q.loopBody c s), loopBody_eq]
    cases hi : q.itemOf s with
    | none => simp [hi]
    | some it =>
      by_cases hf : it.Status = "failed"
      · simp [hi, hf]
      · simp [hi, hf]

/-! ## The summary as a whole -/

theorem checkItem_success (services : List Service) (spec : QuerierSpec) :
    Querier.checkItem ⟨⟨.success services⟩, spec⟩ =
      { Name := checkName
        Status :=
          if (services.filterMap (Querier.itemOf ⟨⟨.success services⟩, spec⟩)).any
              (fun it => it.Status == "failed")
          then "failed" else "passed"
        Items := services.filterMap (Querier.itemOf ⟨⟨.success services⟩, spec⟩) } := by
  simp [Querier.checkItem, Clientset.List, foldl_loopBody]

theorem checkItem_failure (error : String) (services : List Service) (spec : QuerierSpec) :
    Querier.checkItem ⟨⟨.failure error services⟩, spec⟩ =
      { Name := checkName
        Status := "failed"
        Items := services.filterMap (Querier.itemOf ⟨⟨.failure error services⟩, spec⟩) } := by
  simp [Querier.checkItem, Clientset.List, foldl_loopBody]

/-- The loop body, hence the item of a resource, reads the querier only
through its configuration. -/
theorem itemOf_client (c c' : Clientset) (spec : QuerierSpec) :
    Querier.itemOf ⟨c, spec⟩ = Querier.itemOf ⟨c', spec⟩ := rfl

theorem Start_Results (msgs : Messages) (q : Querier) (cfg : QuerierConfig) :
    (q.Start msgs cfg).Results = cfg.Results ++ [q.checkItem] := rfl

theorem filterMap_itemOf_kept (q : Querier) (services : List Service) :
    services.filterMap q.itemOf = (kept services).filterMap q.itemOf := by
  induction services with
  | nil => rfl
  | cons s rest ih =>
    cases ha : s.isAggregator with
    | true => simp [kept, List.filter_cons, ha, itemOf_aggregator q s ha] at ih ⊢; exact ih
    | false =>
      simp only [kept, List.filter_cons, ha, Bool.not_false, if_true, List.filterMap_cons,
        itemOf_kept q s ha] at ih ⊢
      rw [ih]

theorem filterMap_itemOf_names (q : Querier) (services : List Service) :
    (services.filterMap q.itemOf).map Item.Name
      = (kept services).map (fun s => s.ObjectMeta.Name) := by
  induction services with
  | nil => rfl
  | cons s rest ih =>
    cases ha : s.isAggregator with
    | true => simp [kept, List.filter_cons, ha, itemOf_aggregator q s ha] at ih ⊢; exact ih
    | false =>
      simp only [kept, List.filter_cons, ha, Bool.not_false, if_true, List.filterMap_cons,
        itemOf_kept q s ha, List.map_cons] at ih ⊢
      rw [ih]

theorem filterMap_itemOf_length (q : Querier) (services : List Service) :
    (services.filterMap q.itemOf).length = (kept services).length := by
  have h := congrArg List.length (filterMap_itemOf_names q services)
  simpa using h

/-- The item of a non-skipped resource sits in the summary at the position
given by the number of non-skipped resources before it. -/
theorem filterMap_itemOf_at (q : Querier) (pre post : List Service) (s : Service)
    (h : s.isAggregator = false) :
    (List.filterMap q.itemOf (pre ++ s :: post))[(kept pre).length]? = q.itemOf s := by
  obtain ⟨it, hit⟩ : ∃ it, q.itemOf s = some it := ⟨_, itemOf_kept q s h⟩
  rw [List.filterMap_append, List.filterMap_cons, hit, ← filterMap_itemOf_length q pre,
    List.getElem?_append_right (Nat.le_refl _), Nat.sub_self]
  simp

theorem any_failed_iff (items : List Item) :
    items.any (fun it => it.Status == "failed") = true ↔ ∃ it ∈ items, it.Status = "failed" := by
  simp

theorem keyMissing_iff (q : Querier) (s : Service) :
    q.keyMissing s = true ↔
      (TrimSpace q.Spec.Key ≠ "" ∧ s.ObjectMeta.Annotations.index q.Spec.Key = none) := by
  simp [Querier.keyMissing, GoMap.exists]

/-- Everything the check records in the item of a resource it does not skip. -/
theorem itemOf_kept_facts (q : Querier) (s : Service) (h : s.isAggregator = false) :
    ∃ it, q.itemOf s = some it ∧ it.Name = s.ObjectMeta.Name ∧
      it.Status = (if q.keyMissing s then "failed" else "passed") ∧
      it.Details.index "error" =
        (if q.keyMissing s then some (Detail.str (Sprintf_key_does_not_exist q.Spec.Key))
         else none) ∧
      it.Details.index "annotations" =
        (if q.Spec.IncludeAnnotations then some (Detail.strMap s.ObjectMeta.Labels) else none) ∧
      (q.keyMissing s = false → q.Spec.IncludeAnnotations = false → it.Details = GoMap.make) := by
  have hne : ("annotations" : String) ≠ "error" := by decide
  have hne' : ("error" : String) ≠ "annotations" := by decide
  refine ⟨_, itemOf_kept q s h, rfl, rfl, ?_, ?_, ?_⟩
  · cases q.keyMissing s <;> cases q.Spec.IncludeAnnotations <;>
      simp [index_set_same, index_set_ne _ _ _ _ hne', index_make]
  · cases q.keyMissing s <;> cases q.Spec.IncludeAnnotations <;>
      simp [index_set_same, index_set_ne _ _ _ _ hne, index_make]
  · intro hm hi
    simp [hm, hi]

/-- The item of a non-skipped resource, located in the summary that `Start`
sends for a successful query. -/
theorem Start_item_at (msgs : Messages) (spec : QuerierSpec) (pre post : List Service)
    (svc : Service) (cfg : QuerierConfig) (h : svc.isAggregator = false) :
    ∃ s, (Querier.Start msgs ⟨⟨.success (pre ++ svc :: post)⟩, spec⟩ cfg).Results
          = cfg.Results ++ [s] ∧
      s.Items[(kept pre).length]?
        = Querier.itemOf ⟨⟨.success (pre ++ svc :: post)⟩, spec⟩ svc ∧
      (s.Status = "failed" ↔
        ∃ it ∈ s.Items, it.Status = "failed") := by
  refine ⟨_, Start_Results msgs _ cfg, ?_, ?_⟩
  · rw [checkItem_success]
    exact filterMap_itemOf_at _ pre post svc h
  · rw [checkItem_success, ← any_failed_iff]
    by_cases hf : ((pre ++ svc :: post).filterMap
        (Querier.itemOf ⟨⟨.success (pre ++ svc :: post)⟩, spec⟩)).any
        (fun it => it.Status == "failed") = true
    · simp only [hf, if_true]
    · simp only [hf, if_false, iff_false]
      decide

/-- `Start` depends on the querier only through the summary it computes. -/
theorem Start_congr (msgs : Messages) (q q' : Querier) (cfg : QuerierConfig)
    (h : q.checkItem = q'.checkItem) : q.Start msgs cfg = q'.Start msgs cfg := by
  unfold Querier.Start
  rw [h]

theorem kept_length (services : List Service) :
    (kept services).length
      = services.length - (services.filter Service.isAggregator).length := by
  induction services with
  | nil => rfl
  | cons s rest ih =>
    have hle : (rest.filter Service.isAggregator).length ≤ rest.length :=
      List.length_filter_le _ _
    cases ha : s.isAggregator with
    | true =>
      simp only [kept, List.filter_cons, ha, Bool.not_true, Bool.false_eq_true, if_false,
        if_true, List.length_cons] at ih ⊢
      omega
    | false =>
      simp only [kept, List.filter_cons, ha, Bool.not_false, Bool.false_eq_true, if_false,
        if_true, List.length_cons] at ih ⊢
      omega

/-- Everything the check records in an item, read from the resource it was
built for. -/
theorem itemOf_facts (q : Querier) (s : Service) (it : Item) (h : q.itemOf s = some it) :
    s.isAggregator = false ∧ it.Name = s.ObjectMeta.Name ∧
      it.Status = (if q.keyMissing s then "failed" else "passed") ∧
      it.Details.index "error" =
        (if q.keyMissing s then some (Detail.str (Sprintf_key_does_not_exist q.Spec.Key))
         else none) ∧
      it.Details.index "annotations" =
        (if q.Spec.IncludeAnnotations then some (Detail.strMap s.ObjectMeta.Labels)
         else none) := by
  have hagg := (itemOf_status q s it h).1
  obtain ⟨it', hit', hn, hs, he, ha, -⟩ := itemOf_kept_facts q s hagg
  rw [h] at hit'
  cases hit'
  exact ⟨hagg, hn, hs, he, ha⟩

/-- A view of the items, computed from the resources that are not skipped. -/
theorem filterMap_itemOf_map {β : Type} (q : Querier) (f : Item → β) (g : Service → β)
    (hfg : ∀ s it, q.itemOf s = some it → f it = g s) (services : List Service) :
    (services.filterMap q.itemOf).map f = (kept services).map g := by
  induction services with
  | nil => rfl
  | cons s rest ih =>
    cases ha : s.isAggregator with
    | true => simp [kept, List.filter_cons, ha, itemOf_aggregator q s ha] at ih ⊢; exact ih
    | false =>
      obtain ⟨it, hit⟩ : ∃ it, q.itemOf s = some it := ⟨_, itemOf_kept q s ha⟩
      simp only [kept, List.filter_cons, ha, Bool.not_false, if_true, List.filterMap_cons,
        hit, List.map_cons] at ih ⊢
      rw [ih, hfg s it hit]

theorem any_map_status (items : List Item) :
    (items.map Item.Status).any (fun st => st == "failed")
      = items.any (fun it => it.Status == "failed") := by
  induction items with
  | nil => rfl
  | cons it rest ih => simp only [List.map_cons, List.any_cons, ih]

/-- The status of the summary of a successful query, from the statuses of its
items. -/
theorem checkItem_success_status (services : List Service) (spec : QuerierSpec) :
    (Querier.checkItem ⟨⟨.success services⟩, spec⟩).Status =
      if ((Querier.checkItem ⟨⟨.success services⟩, spec⟩).Items.map Item.Status).any
          (fun st => st == "failed")
      then "failed" else "passed" := by
  rw [checkItem_success]
  simp only [any_map_status]

/-- The status of any summary, from the query outcome and the statuses of its
items. -/
theorem checkItem_status (q : Querier) :
    q.checkItem.Status =
      if q.client.outcome.failed || (q.checkItem.Items.map Item.Status).any
          (fun st => st == "failed")
      then "failed" else "passed" := by
  obtain ⟨⟨o⟩, spec⟩ := q
  cases o with
  | success services =>
    rw [checkItem_success_status]
    simp only [QueryOutcome.failed, Bool.false_or]
  | failure e services =>
    rw [checkItem_failure]
    rfl

/-- A view of the items of any summary, computed from the query outcome. -/
theorem checkItem_items_map {β : Type} (q : Querier) (f : Item → β) (g : Service → β)
    (hfg : ∀ s it, q.itemOf s = some it → f it = g s) :
    q.checkItem.Items.map f = (kept q.client.outcome.returned).map g := by
  obtain ⟨⟨o⟩, spec⟩ := q
  cases o with
  | success services =>
    rw [checkItem_success]
    exact filterMap_itemOf_map _ f g hfg services
  | failure e services =>
    rw [checkItem_failure]
    exact filterMap_itemOf_map _ f g hfg services

/-- A key made of white space only is trimmed to the empty string. -/
theorem TrimSpace_of_all_space (key : String) (h : ∀ c ∈ key.data, isSpace c = true) :
    TrimSpace key = "" := by
  have hd : key.data.dropWhile isSpace = [] := List.dropWhile_eq_nil_iff.2 h
  simp only [TrimSpace, hd, List.reverse_nil, List.dropWhile_nil]

/-- When the trimmed key is empty, no item of the summary is `failed`. -/
theorem items_pass_of_inactive (q : Querier) (h : TrimSpace q.Spec.Key = "") :
    ∀ it ∈ q.checkItem.Items, it.Status ≠ "failed" := by
  have hmiss : ∀ svc, q.keyMissing svc = false := by
    intro svc
    simp [Querier.keyMissing, h]
  have hitems : ∀ services : List Service,
      ∀ it ∈ services.filterMap q.itemOf, it.Status ≠ "failed" := by
    intro services it hmem
    obtain ⟨svc, -, hsvc⟩ := List.mem_filterMap.1 hmem
    have hst := (itemOf_status _ svc it hsvc).2.2
    rw [hmiss svc] at hst
    rw [hst]
    decide
  obtain ⟨⟨o⟩, spec⟩ := q
  cases o with
  | success services =>
    rw [checkItem_success]
    exact hitems services
  | failure e services =>
    rw [checkItem_failure]
    exact hitems services

/-- The item of a resource depends on its annotations only through the set of
annotation keys. -/
theorem itemOf_congr (q : Querier) (a b : Service) (h : a.sameUpToAnnotationValues b) :
    q.itemOf a = q.itemOf b := by
  obtain ⟨⟨n, l, an⟩⟩ := a
  obtain ⟨⟨n', l', an'⟩⟩ := b
  obtain ⟨hn, hl, hk⟩ := h
  simp only at hn hl hk
  subst hn hl
  have hm : q.keyMissing ⟨⟨n, l, an⟩⟩ = q.keyMissing ⟨⟨n, l, an'⟩⟩ := by
    simp only [Querier.keyMissing, hk]
  have hagg : Service.isAggregator ⟨⟨n, l, an⟩⟩ = Service.isAggregator ⟨⟨n, l, an'⟩⟩ := rfl
  cases ha : Service.isAggregator ⟨⟨n, l, an⟩⟩ with
  | true => rw [itemOf_aggregator q _ ha, itemOf_aggregator q _ (hagg ▸ ha)]
  | false => rw [itemOf_kept q _ ha, itemOf_kept q _ (hagg ▸ ha), hm]

theorem filterMap_itemOf_congr (q : Querier) (services services' : List Service)
    (h : List.Forall₂ Service.sameUpToAnnotationValues services services') :
    services.filterMap q.itemOf = services'.filterMap q.itemOf := by
  induction h with
  | nil => rfl
  | cons hab _ ih => rw [List.filterMap_cons, List.filterMap_cons, itemOf_congr q _ _ hab, ih]

/-! ## Claims -/

/-- C1: for every configuration and every query outcome, the summary that
`Start` sends has status `failed` if and only if the cluster query failed or
at least one item of the summary has status `failed`. -/
theorem C1_summary_failed_iff (msgs : Messages) (q : Querier) (cfg : QuerierConfig) :
    ∃ s, (q.Start msgs cfg).Results = cfg.Results ++ [s] ∧
      (s.Status = "failed" ↔
        (q.client.outcome.failed = true ∨ ∃ it ∈ s.Items, it.Status = "failed")) := by
  refine ⟨q.checkItem, Start_Results msgs q cfg, ?_⟩
  obtain ⟨⟨o⟩, spec⟩ := q
  cases o with
  | success services =>
    rw [checkItem_success, ← any_failed_iff]
    by_cases h : (services.filterMap (Querier.itemOf ⟨⟨.success services⟩, spec⟩)).any
        (fun it => it.Status == "failed") = true
    · simp only [h, if_true, QueryOutcome.failed, or_true]
    · simp only [h, if_false, QueryOutcome.failed, or_self, iff_false]
      decide
  | failure e services =>
    rw [checkItem_failure]
    simp [QueryOutcome.failed]

/-- C2, as stated, fails twice: a key of one blank is non-empty, yet the check
is off and `svc-b`, which lacks the key, passes in a `passed` summary; and the
aggregator's service, which lacks `required-key`, gets no item and leaves the
summary `passed`. -/
theorem C2_counterexample :
    ((" " : String) ≠ "" ∧ svcB.ObjectMeta.Annotations.index " " = none ∧
      (Querier.Start sampleMsgs ⟨⟨.success [svcB]⟩, ⟨" ", false, false⟩⟩ freshCfg).Results
        = [{ Name := "annotations", Status := "passed"
             Items := [⟨"svc-b", "passed", GoMap.make⟩] }]) ∧
    (("required-key" : String) ≠ "" ∧
      svcAgg.ObjectMeta.Annotations.index "required-key" = none ∧
      (Querier.Start sampleMsgs ⟨⟨.success [svcAgg]⟩, ⟨"required-key", false, false⟩⟩
          freshCfg).Results
        = [{ Name := "annotations", Status := "passed", Items := [] }]) := by
  decide

/-- C2, amended: for every configuration whose key is non-empty after trimming
white space and every resource returned by the query that does not carry the
aggregator label and whose annotations do not contain that key, that
resource's item in the summary has status `failed`, its `details["error"]`
contains the key name, and the summary status is `failed`. -/
theorem C2_missing_key_fails (msgs : Messages) (spec : QuerierSpec) (pre post : List Service)
    (svc : Service) (cfg : QuerierConfig)
    (hkey : TrimSpace spec.Key ≠ "") (hagg : svc.isAggregator = false)
    (hmiss : svc.ObjectMeta.Annotations.index spec.Key = none) :
    ∃ s it msg,
      (Querier.Start msgs ⟨⟨.success (pre ++ svc :: post)⟩, spec⟩ cfg).Results
        = cfg.Results ++ [s] ∧
      s.Status = "failed" ∧
      s.Items[(kept pre).length]? = some it ∧
      it.Name = svc.ObjectMeta.Name ∧
      it.Status = "failed" ∧
      it.Details.index "error" = some (Detail.str msg) ∧
      spec.Key.data <:+: msg.data := by
  obtain ⟨s, hs, hat, hst⟩ := Start_item_at msgs spec pre post svc cfg hagg
  obtain ⟨it, hit, hname, hstatus, herr, -, -⟩ :=
    itemOf_kept_facts ⟨⟨.success (pre ++ svc :: post)⟩, spec⟩ svc hagg
  have hm : Querier.keyMissing ⟨⟨.success (pre ++ svc :: post)⟩, spec⟩ svc = true :=
    (keyMissing_iff _ svc).2 ⟨hkey, hmiss⟩
  rw [hm] at hstatus herr
  rw [hit] at hat
  refine ⟨s, it, _, hs, ?_, hat, hname, hstatus, herr, ?_⟩
  · exact hst.2 ⟨it, List.getElem?_mem hat, hstatus⟩
  · exact ⟨"key: ".data, " does not exist".data, by simp [Sprintf_key_does_not_exist]⟩

/-- Witness of C2 (amended): key `required-key`, resources `svc-a` then `svc-b`;
`svc-b` lacks the key. -/
theorem C2_missing_key_fails_witness :
    TrimSpace "required-key" ≠ "" ∧ svcB.isAggregator = false ∧
    svcB.ObjectMeta.Annotations.index "required-key" = none ∧
    ∃ s it msg,
      (Querier.Start sampleMsgs ⟨⟨.success ([svcA] ++ svcB :: [])⟩,
          ⟨"required-key", false, false⟩⟩ freshCfg).Results = freshCfg.Results ++ [s] ∧
      s.Status = "failed" ∧
      s.Items[(kept [svcA]).length]? = some it ∧
      it.Name = svcB.ObjectMeta.Name ∧
      it.Status = "failed" ∧
      it.Details.index "error" = some (Detail.str msg) ∧
      "required-key".data <:+: msg.data :=
  ⟨by decide, by decide, by decide,
    C2_missing_key_fails sampleMsgs ⟨"required-key", false, false⟩ [svcA] [] svcB freshCfg
      (by decide) (by decide) (by decide)⟩

/-- C3: for every resource that is not skipped, its item has status `failed`
exactly when the configured key is non-empty after trimming white space and
the resource's annotations do not contain the key; in that case
`details["error"]` is exactly `"key: "` followed by the configured key followed
by `" does not exist"`, and otherwise the item has status `passed` and details
has no `"error"` entry (with `includeAnnotations` false, details is empty). -/
theorem C3_item_status (msgs : Messages) (spec : QuerierSpec) (pre post : List Service)
    (svc : Service) (cfg : QuerierConfig) (hagg : svc.isAggregator = false) :
    ∃ s it,
      (Querier.Start msgs ⟨⟨.success (pre ++ svc :: post)⟩, spec⟩ cfg).Results
        = cfg.Results ++ [s] ∧
      s.Items[(kept pre).length]? = some it ∧
      it.Name = svc.ObjectMeta.Name ∧
      (it.Status = "failed" ↔
        (TrimSpace spec.Key ≠ "" ∧ svc.ObjectMeta.Annotations.index spec.Key = none)) ∧
      ((TrimSpace spec.Key ≠ "" ∧ svc.ObjectMeta.Annotations.index spec.Key = none) →
        it.Details.index "error"
          = some (Detail.str ("key: " ++ spec.Key ++ " does not exist"))) ∧
      (¬ (TrimSpace spec.Key ≠ "" ∧ svc.ObjectMeta.Annotations.index spec.Key = none) →
        it.Status = "passed" ∧ it.Details.index "error" = none ∧
          (spec.IncludeAnnotations = false → it.Details = GoMap.make)) := by
  obtain ⟨s, hs, hat, -⟩ := Start_item_at msgs spec pre post svc cfg hagg
  obtain ⟨it, hit, hname, hstatus, herr, -, hempty⟩ :=
    itemOf_kept_facts ⟨⟨.success (pre ++ svc :: post)⟩, spec⟩ svc hagg
  rw [hit] at hat
  have hiff := keyMissing_iff ⟨⟨.success (pre ++ svc :: post)⟩, spec⟩ svc
  refine ⟨s, it, hs, hat, hname, ?_, ?_, ?_⟩
  · rw [hstatus, ← hiff]
    cases Querier.keyMissing ⟨⟨.success (pre ++ svc :: post)⟩, spec⟩ svc
    · simp only [Bool.false_eq_true, if_false, iff_false]; decide
    · simp only [if_true]
  · intro h
    rw [herr, hiff.2 h]
    rfl
  · intro h
    have hm : Querier.keyMissing ⟨⟨.success (pre ++ svc :: post)⟩, spec⟩ svc = false := by
      cases hk : Querier.keyMissing ⟨⟨.success (pre ++ svc :: post)⟩, spec⟩ svc
      · rfl
      · exact absurd (hiff.1 hk) h
    rw [hm] at hstatus herr
    exact ⟨hstatus, herr, hempty hm⟩

/-- Witness of C3: scenario 2 of the specification, `svc-b` without
annotations under key `required-key`. -/
theorem C3_item_status_witness :
    svcB.isAggregator = false ∧
    ∃ s it,
      (Querier.Start sampleMsgs ⟨⟨.success ([] ++ svcB :: [])⟩,
          ⟨"required-key", false, false⟩⟩ freshCfg).Results = freshCfg.Results ++ [s] ∧
      s.Items[(kept []).length]? = some it ∧
      it.Name = svcB.ObjectMeta.Name ∧
      (it.Status = "failed" ↔
        (TrimSpace "required-key" ≠ "" ∧
          svcB.ObjectMeta.Annotations.index "required-key" = none)) ∧
      ((TrimSpace "required-key" ≠ "" ∧
          svcB.ObjectMeta.Annotations.index "required-key" = none) →
        it.Details.index "error"
          = some (Detail.str ("key: " ++ "required-key" ++ " does not exist"))) ∧
      (¬ (TrimSpace "required-key" ≠ "" ∧
          svcB.ObjectMeta.Annotations.index "required-key" = none) →
        it.Status = "passed" ∧ it.Details.index "error" = none ∧
          (false = false → it.Details = GoMap.make)) :=
  ⟨by decide,
    C3_item_status sampleMsgs ⟨"required-key", false, false⟩ [] [] svcB freshCfg (by decide)⟩

/-- C4: for every configuration with an empty key and every query outcome, no
item in the summary has status `failed`, and the summary status is `failed`
only if the query failed (`passed` whenever the query succeeded). -/
theorem C4_empty_key (msgs : Messages) (q : Querier) (cfg : QuerierConfig)
    (hkey : q.Spec.Key = "") :
    ∃ s, (q.Start msgs cfg).Results = cfg.Results ++ [s] ∧
      (∀ it ∈ s.Items, it.Status ≠ "failed") ∧
      (s.Status = "failed" → q.client.outcome.failed = true) ∧
      (q.client.outcome.failed = false → s.Status = "passed") := by
  refine ⟨q.checkItem, Start_Results msgs q cfg, ?_⟩
  obtain ⟨⟨o⟩, spec⟩ := q
  simp only at hkey
  have hmiss : ∀ svc, Querier.keyMissing ⟨⟨o⟩, spec⟩ svc = false := by
    intro svc
    have ht : (TrimSpace "" != "") = false := by decide
    simp only [Querier.keyMissing, hkey, ht, Bool.false_and]
  have hitems : ∀ services : List Service,
      ∀ it ∈ services.filterMap (Querier.itemOf ⟨⟨o⟩, spec⟩), it.Status ≠ "failed" := by
    intro services it hmem
    obtain ⟨svc, -, hsvc⟩ := List.mem_filterMap.1 hmem
    have hst := (itemOf_status _ svc it hsvc).2.2
    rw [hmiss svc] at hst
    rw [hst]
    decide
  cases o with
  | success services =>
    have hany : (services.filterMap (Querier.itemOf ⟨⟨.success services⟩, spec⟩)).any
        (fun it => it.Status == "failed") = false := by
      rw [Bool.eq_false_iff, Ne, any_failed_iff]
      rintro ⟨it, hmem, hf⟩
      exact hitems services it hmem hf
    rw [checkItem_success]
    simp only [hany]
    refine ⟨hitems services, ?_, fun _ => rfl⟩
    intro h
    exact absurd h (by decide)
  | failure e services =>
    rw [checkItem_failure]
    refine ⟨hitems services, fun _ => rfl, ?_⟩
    intro h
    simp [QueryOutcome.failed] at h

/-- Witness of C4: scenario 5 of the specification, empty key with
annotation capture on. -/
theorem C4_empty_key_witness :
    (QuerierSpec.mk "" false true).Key = "" ∧
    ∃ s, (Querier.Start sampleMsgs ⟨⟨.success [svcProd]⟩, ⟨"", false, true⟩⟩ freshCfg).Results
        = freshCfg.Results ++ [s] ∧
      (∀ it ∈ s.Items, it.Status ≠ "failed") ∧
      (s.Status = "failed" → QueryOutcome.failed (.success [svcProd]) = true) ∧
      (QueryOutcome.failed (.success [svcProd]) = false → s.Status = "passed") :=
  ⟨rfl, C4_empty_key sampleMsgs ⟨⟨.success [svcProd]⟩, ⟨"", false, true⟩⟩ freshCfg rfl⟩

/-- C5: for every configuration and query result, resources carrying the label
`sonobuoy-component=aggregator` contribute no item and cannot affect the
overall status: what `Start` produces (summary sent and log written) equals
what it produces for the same query outcome with those resources removed,
whatever their annotations and other labels are. -/
theorem C5_aggregator_removed (msgs : Messages) (spec : QuerierSpec) (o : QueryOutcome)
    (cfg : QuerierConfig) :
    Querier.Start msgs ⟨⟨o⟩, spec⟩ cfg
      = Querier.Start msgs ⟨⟨o.withoutAggregators⟩, spec⟩ cfg := by
  apply Start_congr
  cases o with
  | success services =>
    simp only [QueryOutcome.withoutAggregators]
    rw [checkItem_success, checkItem_success, filterMap_itemOf_kept _ services]
    rfl
  | failure e services =>
    simp only [QueryOutcome.withoutAggregators]
    rw [checkItem_failure, checkItem_failure, filterMap_itemOf_kept _ services]
    rfl

/-- C6: when the query succeeds, the sequence of item names in the summary
equals, in the same order, the sequence of names of the returned resources that
do not carry the aggregator label; hence the item count is the number of
returned resources minus the number skipped. -/
theorem C6_items_in_query_order (msgs : Messages) (spec : QuerierSpec)
    (services : List Service) (cfg : QuerierConfig) :
    ∃ s, (Querier.Start msgs ⟨⟨.success services⟩, spec⟩ cfg).Results = cfg.Results ++ [s] ∧
      s.Items.map Item.Name
        = (services.filter (fun r => !r.isAggregator)).map (fun r => r.ObjectMeta.Name) ∧
      s.Items.length = services.length - (services.filter Service.isAggregator).length := by
  refine ⟨_, Start_Results msgs _ cfg, ?_, ?_⟩
  · rw [checkItem_success]
    exact filterMap_itemOf_names _ services
  · rw [checkItem_success, ← kept_length]
    exact filterMap_itemOf_length _ services

/-- C7, as stated, fails: a `List` call that fails after `svc-b` was decoded
returns the error together with that resource; `Start` sets the status to
`failed` and still runs the loop, so the summary has an item for `svc-b`. -/
theorem C7_counterexample :
    QueryOutcome.failed (.failure "unexpected end of JSON input" [svcB]) = true ∧
    (Querier.Start sampleMsgs
        ⟨⟨.failure "unexpected end of JSON input" [svcB]⟩, ⟨"required-key", false, false⟩⟩
        freshCfg).Results
      = [{ Name := "annotations", Status := "failed"
           Items := [⟨"svc-b", "failed",
             mapOf [("error", Detail.str "key: required-key does not exist")]
               (by decide)⟩] }] := by
  decide

/-- C7, amended: if the cluster query fails, the summary `Start` sends has
status `failed`, and its item list holds one item, in order, for each resource
without the aggregator label that the failed call nevertheless returned (the
same items as for a successful query returning those resources); so the item
list is empty when the failed call returned no resources. -/
theorem C7_query_failure (msgs : Messages) (q : Querier) (cfg : QuerierConfig)
    (hfail : q.client.outcome.failed = true) :
    ∃ s s',
      (q.Start msgs cfg).Results = cfg.Results ++ [s] ∧
      (Querier.Start msgs ⟨⟨.success q.client.outcome.returned⟩, q.Spec⟩ cfg).Results
        = cfg.Results ++ [s'] ∧
      s.Status = "failed" ∧
      s.Items = s'.Items ∧
      s.Items.map Item.Name
        = (q.client.outcome.returned.filter (fun r => !r.isAggregator)).map
            (fun r => r.ObjectMeta.Name) ∧
      (q.client.outcome.returned = [] → s.Items = []) := by
  refine ⟨q.checkItem, _, Start_Results msgs q cfg, Start_Results msgs _ cfg, ?_⟩
  obtain ⟨⟨o⟩, spec⟩ := q
  cases o with
  | success services => simp [QueryOutcome.failed] at hfail
  | failure e services =>
    simp only [QueryOutcome.returned]
    rw [checkItem_failure, checkItem_success]
    refine ⟨rfl, rfl, filterMap_itemOf_names _ services, ?_⟩
    intro hnil
    rw [hnil]
    rfl

/-- Witness of C7 (amended): scenario 4 of the specification, a transport
error, where the call returns no resources and the item list is empty. -/
theorem C7_query_failure_witness :
    QueryOutcome.failed (.failure "transport error" []) = true ∧
    ∃ s, (Querier.Start sampleMsgs ⟨⟨.failure "transport error" []⟩,
          ⟨"required-key", false, true⟩⟩ freshCfg).Results = freshCfg.Results ++ [s] ∧
      s.Status = "failed" ∧ s.Items = [] := by
  obtain ⟨s, -, hs, -, hst, -, -, hempty⟩ := C7_query_failure sampleMsgs
    ⟨⟨.failure "transport error" []⟩, ⟨"required-key", false, true⟩⟩ freshCfg rfl
  exact ⟨rfl, s, hs, hst, hempty rfl⟩

/-- C8: if `includeAnnotations` is true, every non-skipped resource's item has
a `details["annotations"]` entry equal to that resource's full label mapping
(the same map, hence the same keys and values, and the empty map when the
resource has no labels); if `includeAnnotations` is false, no item has a
`details["annotations"]` entry. -/
theorem C8_annotations_entry (msgs : Messages) (spec : QuerierSpec) (cfg : QuerierConfig) :
    (spec.IncludeAnnotations = true →
      ∀ (pre post : List Service) (svc : Service), svc.isAggregator = false →
        ∃ s it,
          (Querier.Start msgs ⟨⟨.success (pre ++ svc :: post)⟩, spec⟩ cfg).Results
            = cfg.Results ++ [s] ∧
          s.Items[(kept pre).length]? = some it ∧
          it.Name = svc.ObjectMeta.Name ∧
          it.Details.index "annotations" = some (Detail.strMap svc.ObjectMeta.Labels)) ∧
    (spec.IncludeAnnotations = false →
      ∀ o : QueryOutcome,
        ∃ s, (Querier.Start msgs ⟨⟨o⟩, spec⟩ cfg).Results = cfg.Results ++ [s] ∧
          ∀ it ∈ s.Items, it.Details.index "annotations" = none) := by
  constructor
  · intro hincl pre post svc hagg
    obtain ⟨s, hs, hat, -⟩ := Start_item_at msgs spec pre post svc cfg hagg
    obtain ⟨it, hit, hname, -, -, hann, -⟩ :=
      itemOf_kept_facts ⟨⟨.success (pre ++ svc :: post)⟩, spec⟩ svc hagg
    rw [hit] at hat
    simp only [hincl, if_true] at hann
    exact ⟨s, it, hs, hat, hname, hann⟩
  · intro hincl o
    refine ⟨_, Start_Results msgs _ cfg, ?_⟩
    cases o with
    | success services =>
      rw [checkItem_success]
      intro it hmem
      obtain ⟨svc, -, hsvc⟩ := List.mem_filterMap.1 hmem
      obtain ⟨hagg, -, -⟩ := itemOf_status _ svc it hsvc
      obtain ⟨it', hit', -, -, -, hann, -⟩ :=
        itemOf_kept_facts ⟨⟨.success services⟩, spec⟩ svc hagg
      rw [hsvc] at hit'
      cases hit'
      simpa [hincl] using hann
    | failure e services =>
      rw [checkItem_failure]
      intro it hmem
      obtain ⟨svc, -, hsvc⟩ := List.mem_filterMap.1 hmem
      have hann := (itemOf_facts _ svc it hsvc).2.2.2.2
      simpa [hincl] using hann

/-- Witness of C8: scenario 5 of the specification with capture on (the item
of `svc-prod` carries its labels), and scenario 2 with capture off. -/
theorem C8_annotations_entry_witness :
    (svcProd.isAggregator = false ∧
      ∃ s it,
        (Querier.Start sampleMsgs ⟨⟨.success ([svcAgg] ++ svcProd :: [])⟩, ⟨"", false, true⟩⟩
            freshCfg).Results = freshCfg.Results ++ [s] ∧
        s.Items[(kept [svcAgg]).length]? = some it ∧
        it.Name = svcProd.ObjectMeta.Name ∧
        it.Details.index "annotations" = some (Detail.strMap svcProd.ObjectMeta.Labels)) ∧
    (∃ s, (Querier.Start sampleMsgs ⟨⟨.success [svcB]⟩, ⟨"required-key", false, false⟩⟩
          freshCfg).Results = freshCfg.Results ++ [s] ∧
      ∀ it ∈ s.Items, it.Details.index "annotations" = none) :=
  ⟨⟨by decide,
      (C8_annotations_entry sampleMsgs ⟨"", false, true⟩ freshCfg).1 rfl [svcAgg] [] svcProd
        (by decide)⟩,
    (C8_annotations_entry sampleMsgs ⟨"required-key", false, false⟩ freshCfg).2 rfl
      (.success [svcB])⟩

/-- C9: every invocation of `Start`, whether the query succeeds or fails and
whatever resources are returned, sends exactly one summary to the result sink
(the sink holds what it held before followed by one new entry), and that
summary's name is the check name `annotations`. -/
theorem C9_exactly_one_summary (msgs : Messages) (q : Querier) (cfg : QuerierConfig) :
    ∃ s, (q.Start msgs cfg).Results = cfg.Results ++ [s] ∧ s.Name = "annotations" := by
  refine ⟨q.checkItem, Start_Results msgs q cfg, ?_⟩
  obtain ⟨⟨o⟩, spec⟩ := q
  cases o with
  | success services => rw [checkItem_success]; rfl
  | failure e services => rw [checkItem_failure]; rfl

/-- C10: `validateURL` has no observable effect: for every query outcome, two
configurations that differ only in `validateURL` make `Start` produce the same
result (the same summary sent, with the same status and items, and the same
log). -/
theorem C10_validateURL_unused (msgs : Messages) (client : Clientset) (key : String)
    (validateURL validateURL' includeAnnotations : Bool) (cfg : QuerierConfig) :
    Querier.Start msgs ⟨client, ⟨key, validateURL, includeAnnotations⟩⟩ cfg
      = Querier.Start msgs ⟨client, ⟨key, validateURL', includeAnnotations⟩⟩ cfg := by
  apply Start_congr
  rfl

/-- C11: `AddtoRunner` always succeeds and appends this check to the runner's
collection: afterwards the collection is the previous collection, unchanged
and in the same order, followed by this querier as its last element (the
length grows by exactly one). -/
theorem C11_AddtoRunner_appends (querier : Querier) (runner : Runner) :
    (querier.AddtoRunner runner).Queriers = runner.Queriers ++ [querier] ∧
      (querier.AddtoRunner runner).Queriers.getLast? = some querier ∧
      (querier.AddtoRunner runner).Queriers.length = runner.Queriers.length + 1 := by
  refine ⟨rfl, ?_, ?_⟩
  · simp [Querier.AddtoRunner]
  · simp [Querier.AddtoRunner]

/-- C12: the annotation-key check and annotation capture are independent: for
every query outcome, changing `includeAnnotations` alone changes neither the
summary status nor any item's name, status or `"error"` entry, and changing
`key` alone changes no item's `"annotations"` entry nor which items exist
(the items, compared position by position, have the same names). -/
theorem C12_check_and_capture_independent (msgs : Messages) (client : Clientset)
    (key key' : String) (validateURL includeAnnotations includeAnnotations' : Bool)
    (cfg : QuerierConfig) :
    (∃ s s',
      (Querier.Start msgs ⟨client, ⟨key, validateURL, includeAnnotations⟩⟩ cfg).Results
        = cfg.Results ++ [s] ∧
      (Querier.Start msgs ⟨client, ⟨key, validateURL, includeAnnotations'⟩⟩ cfg).Results
        = cfg.Results ++ [s'] ∧
      s.Status = s'.Status ∧
      s.Items.map Item.Name = s'.Items.map Item.Name ∧
      s.Items.map Item.Status = s'.Items.map Item.Status ∧
      s.Items.map (fun it => it.Details.index "error")
        = s'.Items.map (fun it => it.Details.index "error")) ∧
    (∃ s s',
      (Querier.Start msgs ⟨client, ⟨key, validateURL, includeAnnotations⟩⟩ cfg).Results
        = cfg.Results ++ [s] ∧
      (Querier.Start msgs ⟨client, ⟨key', validateURL, includeAnnotations⟩⟩ cfg).Results
        = cfg.Results ++ [s'] ∧
      s.Items.map Item.Name = s'.Items.map Item.Name ∧
      s.Items.map (fun it => it.Details.index "annotations")
        = s'.Items.map (fun it => it.Details.index "annotations")) := by
  have hstatus :
      (Querier.checkItem ⟨client, ⟨key, validateURL, includeAnnotations⟩⟩).Items.map Item.Status
        = (Querier.checkItem ⟨client, ⟨key, validateURL, includeAnnotations'⟩⟩).Items.map
            Item.Status := by
    rw [checkItem_items_map ⟨client, ⟨key, validateURL, includeAnnotations⟩⟩ Item.Status _
        (fun s it h => (itemOf_facts _ s it h).2.2.1),
      checkItem_items_map ⟨client, ⟨key, validateURL, includeAnnotations'⟩⟩ Item.Status _
        (fun s it h => (itemOf_facts _ s it h).2.2.1)]
    rfl
  constructor
  · refine ⟨_, _, Start_Results msgs _ cfg, Start_Results msgs _ cfg, ?_, ?_, hstatus, ?_⟩
    · rw [checkItem_status, checkItem_status ⟨client, ⟨key, validateURL, includeAnnotations'⟩⟩,
        hstatus]
    · rw [checkItem_items_map ⟨client, ⟨key, validateURL, includeAnnotations⟩⟩ Item.Name _
          (fun s it h => (itemOf_facts _ s it h).2.1),
        checkItem_items_map ⟨client, ⟨key, validateURL, includeAnnotations'⟩⟩ Item.Name _
          (fun s it h => (itemOf_facts _ s it h).2.1)]
    · rw [checkItem_items_map ⟨client, ⟨key, validateURL, includeAnnotations⟩⟩
          (fun it => it.Details.index "error") _
          (fun s it h => (itemOf_facts _ s it h).2.2.2.1),
        checkItem_items_map ⟨client, ⟨key, validateURL, includeAnnotations'⟩⟩
          (fun it => it.Details.index "error") _
          (fun s it h => (itemOf_facts _ s it h).2.2.2.1)]
      rfl
  · refine ⟨_, _, Start_Results msgs _ cfg, Start_Results msgs _ cfg, ?_, ?_⟩
    · rw [checkItem_items_map ⟨client, ⟨key, validateURL, includeAnnotations⟩⟩ Item.Name _
          (fun s it h => (itemOf_facts _ s it h).2.1),
        checkItem_items_map ⟨client, ⟨key', validateURL, includeAnnotations⟩⟩ Item.Name _
          (fun s it h => (itemOf_facts _ s it h).2.1)]
    · rw [checkItem_items_map ⟨client, ⟨key, validateURL, includeAnnotations⟩⟩
          (fun it => it.Details.index "annotations") _
          (fun s it h => (itemOf_facts _ s it h).2.2.2.2),
        checkItem_items_map ⟨client, ⟨key', validateURL, includeAnnotations⟩⟩
          (fun it => it.Details.index "annotations") _
          (fun s it h => (itemOf_facts _ s it h).2.2.2.2)]

/-- C13: idempotence/determinism: for the same configuration and the same
cluster query outcome, two invocations of `Start` (in any two execution
contexts, for instance one after the other on the same sink) produce summaries
with equal status and, item by item, equal name, status and `"error"` entry;
in fact the two summaries are equal. -/
theorem C13_repeated_Start (msgs msgs' : Messages) (q : Querier) (cfg cfg' : QuerierConfig) :
    ∃ s s',
      (q.Start msgs cfg).Results = cfg.Results ++ [s] ∧
      (q.Start msgs' cfg').Results = cfg'.Results ++ [s'] ∧
      s.Status = s'.Status ∧
      s.Items.map Item.Name = s'.Items.map Item.Name ∧
      s.Items.map Item.Status = s'.Items.map Item.Status ∧
      s.Items.map (fun it => it.Details.index "error")
        = s'.Items.map (fun it => it.Details.index "error") ∧
      s = s' :=
  ⟨q.checkItem, q.checkItem, Start_Results msgs q cfg, Start_Results msgs' q cfg',
    rfl, rfl, rfl, rfl, rfl⟩

/-- C14: the summary status is latched: it starts `passed` (the summary of an
empty query result is `passed`) and once `failed` is never reset, so for a
fixed configuration, if the summary for a list of resources is `failed` then
the summary for any list that extends it with further resources, whatever they
are, is also `failed`. -/
theorem C14_status_latched (msgs : Messages) (spec : QuerierSpec)
    (services more : List Service) (cfg : QuerierConfig) :
    ∃ s₀ s s',
      (Querier.Start msgs ⟨⟨.success []⟩, spec⟩ cfg).Results = cfg.Results ++ [s₀] ∧
      (Querier.Start msgs ⟨⟨.success services⟩, spec⟩ cfg).Results = cfg.Results ++ [s] ∧
      (Querier.Start msgs ⟨⟨.success (services ++ more)⟩, spec⟩ cfg).Results
        = cfg.Results ++ [s'] ∧
      s₀.Status = "passed" ∧
      (s.Status = "failed" → s'.Status = "failed") := by
  refine ⟨_, _, _, Start_Results msgs _ cfg, Start_Results msgs _ cfg,
    Start_Results msgs _ cfg, rfl, ?_⟩
  rw [checkItem_success, checkItem_success]
  simp only [itemOf_client ⟨.success (services ++ more)⟩ ⟨.success services⟩ spec,
    List.filterMap_append, List.any_append]
  intro h
  cases hany : (services.filterMap (Querier.itemOf ⟨⟨.success services⟩, spec⟩)).any
      (fun it => it.Status == "failed") with
  | true => simp
  | false =>
    rw [hany] at h
    exact absurd h (by decide)

/-- Witness of C14: under key `required-key`, `svc-b` alone gives a `failed`
summary, and so does `svc-b` followed by the passing `svc-a`. -/
theorem C14_status_latched_witness :
    ∃ s s',
      (Querier.Start sampleMsgs ⟨⟨.success [svcB]⟩, ⟨"required-key", false, false⟩⟩
          freshCfg).Results = freshCfg.Results ++ [s] ∧
      (Querier.Start sampleMsgs ⟨⟨.success ([svcB] ++ [svcA])⟩, ⟨"required-key", false, false⟩⟩
          freshCfg).Results = freshCfg.Results ++ [s'] ∧
      s.Status = "failed" ∧ s'.Status = "failed" := by
  obtain ⟨-, s, s', -, hs, hs', -, himp⟩ :=
    C14_status_latched sampleMsgs ⟨"required-key", false, false⟩ [svcB] [svcA] freshCfg
  have hf : s.Status = "failed" := by
    rw [Start_Results] at hs
    have h := List.append_cancel_left hs
    simp only [List.cons.injEq, and_true] at h
    rw [← h]
    decide
  exact ⟨s, s', hs, hs', hf, himp hf⟩

/-- C15: white space is trimmed only to decide whether the key check is
active; the presence test and the error message use the key exactly as
configured.  So for a key that is non-empty after trimming, a non-skipped
resource whose annotations contain the trimmed key but not the key as
configured gets status `failed` (with the configured key in the message, and
a `failed` summary), and a key made of white space only disables the check
entirely (no item fails). -/
theorem C15_key_used_as_configured (msgs : Messages) (spec : QuerierSpec)
    (cfg : QuerierConfig) :
    (∀ (pre post : List Service) (svc : Service),
      TrimSpace spec.Key ≠ "" → svc.isAggregator = false →
      svc.ObjectMeta.Annotations.exists (TrimSpace spec.Key) = true →
      svc.ObjectMeta.Annotations.exists spec.Key = false →
      ∃ s it,
        (Querier.Start msgs ⟨⟨.success (pre ++ svc :: post)⟩, spec⟩ cfg).Results
          = cfg.Results ++ [s] ∧
        s.Items[(kept pre).length]? = some it ∧
        it.Name = svc.ObjectMeta.Name ∧
        it.Status = "failed" ∧
        it.Details.index "error"
          = some (Detail.str ("key: " ++ spec.Key ++ " does not exist")) ∧
        s.Status = "failed") ∧
    ((∀ c ∈ spec.Key.data, isSpace c = true) →
      ∀ o : QueryOutcome,
        ∃ s, (Querier.Start msgs ⟨⟨o⟩, spec⟩ cfg).Results = cfg.Results ++ [s] ∧
          ∀ it ∈ s.Items, it.Status ≠ "failed") := by
  constructor
  · intro pre post svc hkey hagg _ hmiss
    obtain ⟨s, hs, hat, hst⟩ := Start_item_at msgs spec pre post svc cfg hagg
    obtain ⟨it, hit, hname, hstatus, herr, -, -⟩ :=
      itemOf_kept_facts ⟨⟨.success (pre ++ svc :: post)⟩, spec⟩ svc hagg
    have hm : Querier.keyMissing ⟨⟨.success (pre ++ svc :: post)⟩, spec⟩ svc = true := by
      have hne : (TrimSpace spec.Key != "") = true := by simpa using hkey
      simp only [Querier.keyMissing, hne, hmiss, Bool.not_false, Bool.and_self]
    rw [hm] at hstatus herr
    rw [hit] at hat
    exact ⟨s, it, hs, hat, hname, hstatus, herr,
      hst.2 ⟨it, List.getElem?_mem hat, hstatus⟩⟩
  · intro hspace o
    exact ⟨_, Start_Results msgs _ cfg,
      items_pass_of_inactive ⟨⟨o⟩, spec⟩ (TrimSpace_of_all_space spec.Key hspace)⟩

/-- Witness of C15: the key `" required-key"` (leading blank) against `svc-a`,
which is annotated with `required-key`; and the key of a blank and a tab
against `svc-b`, which has no annotations. -/
theorem C15_key_used_as_configured_witness :
    (TrimSpace " required-key" ≠ "" ∧ svcA.isAggregator = false ∧
      svcA.ObjectMeta.Annotations.exists (TrimSpace " required-key") = true ∧
      svcA.ObjectMeta.Annotations.exists " required-key" = false ∧
      ∃ s it,
        (Querier.Start sampleMsgs ⟨⟨.success ([] ++ svcA :: [])⟩,
            ⟨" required-key", false, false⟩⟩ freshCfg).Results = freshCfg.Results ++ [s] ∧
        s.Items[(kept []).length]? = some it ∧
        it.Name = svcA.ObjectMeta.Name ∧
        it.Status = "failed" ∧
        it.Details.index "error"
          = some (Detail.str ("key: " ++ " required-key" ++ " does not exist")) ∧
        s.Status = "failed") ∧
    ((∀ c ∈ " \t".data, isSpace c = true) ∧
      ∃ s, (Querier.Start sampleMsgs ⟨⟨.success [svcB]⟩, ⟨" \t", false, false⟩⟩
            freshCfg).Results = freshCfg.Results ++ [s] ∧
        ∀ it ∈ s.Items, it.Status ≠ "failed") :=
  ⟨⟨by decide, by decide, by decide, by decide,
      (C15_key_used_as_configured sampleMsgs ⟨" required-key", false, false⟩ freshCfg).1
        [] [] svcA (by decide) (by decide) (by decide) (by decide)⟩,
    ⟨by decide,
      (C15_key_used_as_configured sampleMsgs ⟨" \t", false, false⟩ freshCfg).2 (by decide)
        (.success [svcB])⟩⟩

/-- C16: the summary depends on a resource's annotations only through the set
of annotation keys, never their values: two query results whose resources
differ only in annotation values (same names, labels and annotation keys)
make `Start` produce the same result, for every configuration. -/
theorem C16_annotation_values_unused (msgs : Messages) (spec : QuerierSpec)
    (services services' : List Service) (cfg : QuerierConfig)
    (h : List.Forall₂ Service.sameUpToAnnotationValues services services') :
    Querier.Start msgs ⟨⟨.success services⟩, spec⟩ cfg
      = Querier.Start msgs ⟨⟨.success services'⟩, spec⟩ cfg := by
  apply Start_congr
  rw [checkItem_success, checkItem_success,
    itemOf_client ⟨.success services'⟩ ⟨.success services⟩ spec,
    filterMap_itemOf_congr _ services services' h]

/-- Witness of C16: `svc-a` with `required-key` mapped to `"x"` and to the
empty string, under key `required-key`. -/
theorem C16_annotation_values_unused_witness :
    List.Forall₂ Service.sameUpToAnnotationValues [svcA] [svcAEmpty] ∧
    Querier.Start sampleMsgs ⟨⟨.success [svcA]⟩, ⟨"required-key", false, true⟩⟩ freshCfg
      = Querier.Start sampleMsgs ⟨⟨.success [svcAEmpty]⟩, ⟨"required-key", false, true⟩⟩
          freshCfg :=
  have h : List.Forall₂ Service.sameUpToAnnotationValues [svcA] [svcAEmpty] :=
    List.Forall₂.cons
      ⟨rfl, rfl, fun k => by
        simp only [svcA, svcAEmpty, mkService, mapOf, GoMap.exists, GoMap.index, List.lookup]
        cases k == "required-key" <;> rfl⟩
      List.Forall₂.nil
  ⟨h, C16_annotation_values_unused sampleMsgs ⟨"required-key", false, true⟩ [svcA] [svcAEmpty]
    freshCfg h⟩

end annotations
